import Mathlib

/-!
Verification of the grafana-toolkit plugin CI pipeline
(`packages/grafana-toolkit/src/cli/tasks/plugin.ci.ts`).

The file shallowly embeds the four stage runners of the pipeline —
`buildPluginRunner`, `packagePluginRunner`, `testPluginRunner` and
`pluginReportRunner` — as pure Lean functions over explicit state:

* the remote object store (`S3Client`) is an association list from string
  keys to stored JSON objects; `exists`, `readJSON` and `writeJSON` are
  modelled directly on it, and the binary-asset operations (`uploadLogo`,
  `uploadPackages`, `uploadTestFiles`) are recorded as events since they
  never touch the JSON record keys;
* directories are association lists from relative paths to file data;
* external collaborators (the frontend/backend build delegates, the axios
  HTTP calls, the end-to-end runner, `zip`/`cp` processes) are inputs
  carrying their observable outcome, following the collaborator contracts
  of the design document (§6).

Each claim about the specification is settled by one theorem below the
definitions.
-/

namespace PluginCI

/-! ## Association-list maps

JavaScript object maps (`index.branch[branch] = latest`, …), directories
and the remote store are modelled as association lists with first-match
lookup and in-place update, keeping every definition executable. -/

def lookupEntry {α β : Type} [DecidableEq α] (k : α) : List (α × β) → Option β
  | [] => none
  | e :: rest => if e.1 = k then some e.2 else lookupEntry k rest

def setEntry {α β : Type} [DecidableEq α] (k : α) (v : β) : List (α × β) → List (α × β)
  | [] => [(k, v)]
  | e :: rest => if e.1 = k then (k, v) :: rest else e :: setEntry k v rest

/-! ## Plugin metadata model

Mirrors the fields of `PluginMeta` / `PluginBuildInfo` (from
`@grafana/data` and `plugins/types`) that `plugin.ci.ts` reads: identity,
name, type, version and the build-provenance record. -/

structure PluginBuildInfo where
  branch : Option String
  hash : Option String
  number : Option Nat
  pr : Option Nat
deriving Repr, DecidableEq

structure PluginMetaInfo where
  version : Option String
  build : Option PluginBuildInfo
deriving Repr, DecidableEq

structure PluginMeta where
  id : String
  name : String
  type : String
  info : PluginMetaInfo
deriving Repr, DecidableEq

/-! ## Report Stage key derivation (`pluginReportRunner`, lines 357–394)

`root`, `dirKey`, `jobKey`, the history `base` and `historyKey` are the
template strings of the source, written with explicit `++`. -/

def rootOf (pluginId : String) : String := "dev/" ++ pluginId

def dirKeyOf (pluginId : String) (pr : Option Nat) (branch : String)
    (buildNumber : Nat) : String :=
  match pr with
  | some p => rootOf pluginId ++ "/pr/" ++ toString p ++ "/" ++ toString buildNumber
  | none => rootOf pluginId ++ "/branch/" ++ branch ++ "/" ++ toString buildNumber

def jobKeyOf (pluginId : String) (pr : Option Nat) (branch : String)
    (buildNumber : Nat) : String :=
  dirKeyOf pluginId pr branch buildNumber ++ "/index.json"

def historyBaseOf (pluginId : String) (pr : Option Nat) (branch : String) : String :=
  match pr with
  | some p => rootOf pluginId ++ "/pr/" ++ toString p ++ "/"
  | none => rootOf pluginId ++ "/branch/" ++ branch ++ "/"

def historyKeyOf (pluginId : String) (pr : Option Nat) (branch : String) : String :=
  historyBaseOf pluginId pr branch ++ "history.json"

def indexKeyOf (pluginId : String) : String := rootOf pluginId ++ "/index.json"

/-- The cross-plugin global index key (line 426). -/
def devIndexKey : String := "dev/index.json"

/-! ## Report Stage data model (`pluginReportRunner`, lines 318–431) -/

/-- The summary record `latest` built at lines 379–385 (`PluginDevInfo` in
`plugins/types`). -/
structure PluginDevInfo where
  pluginId : String
  name : String
  logo : Option String
  build : PluginBuildInfo
  version : String
deriving Repr, DecidableEq

/-- Modelled from the spec: the per-scope history object stored at the
History Key (`PluginHistory` / `defaultPluginHistory` of `plugins/types`,
which is not under `src/`). Its entries are touched only through the
`appendPluginHistory` collaborator, so their exact shape is irrelevant to
the report runner; the default used by `readJSON` is the empty history. -/
structure PluginHistory where
  evolution : List PluginDevInfo
deriving Repr, DecidableEq

def defaultPluginHistory : PluginHistory := { evolution := [] }

/-- The per-plugin directory index stored at `<root>/index.json`:
`{ branch: {}, pr: {} }`, two JavaScript object maps (lines 418–423). -/
structure PluginDevSummary where
  branch : List (String × PluginDevInfo)
  pr : List (Nat × PluginDevInfo)
deriving Repr, DecidableEq

/-- The cross-plugin global index stored at `dev/index.json`
(`DevSummary`, a map from plugin id to latest record, lines 426–429). -/
abbrev DevSummary : Type := List (String × PluginDevInfo)

/-- The report assembled at lines 327–339. The workflow/coverage/test
summaries, package details, artifacts base URL and Grafana version list
come verbatim from out-of-scope collaborators and are carried as opaque
payloads. -/
structure PluginBuildReport where
  plugin : PluginMeta
  packages : String
  workflow : String
  coverage : String
  tests : String
  artifactsBaseURL : String
  grafanaVersion : String
  pullRequest : Option Nat
deriving Repr, DecidableEq

/-- A value held at a JSON key of the remote store. -/
inductive RemoteVal where
  | reportVal (report : PluginBuildReport)
  | historyVal (h : PluginHistory)
  | summaryVal (s : PluginDevSummary)
  | devVal (d : List (String × PluginDevInfo))
deriving Repr, DecidableEq

/-- A stored object: the JSON value plus the optional `Tagging` metadata
passed to `writeJSON` (line 370). -/
structure S3Object where
  val : RemoteVal
  tagging : Option String
deriving Repr, DecidableEq

/-- The JSON-record state of the remote store, keyed by hierarchical
string keys. `exists` is occupancy, `writeJSON` is `setEntry`, `readJSON`
falls back to the supplied default. -/
abbrev S3Store : Type := List (String × S3Object)

def s3ReadHistory (s : S3Store) (k : String) (dflt : PluginHistory) : PluginHistory :=
  match lookupEntry k s with
  | some obj =>
    match obj.val with
    | RemoteVal.historyVal h => h
    | _ => dflt
  | none => dflt

def s3ReadSummary (s : S3Store) (k : String) (dflt : PluginDevSummary) : PluginDevSummary :=
  match lookupEntry k s with
  | some obj =>
    match obj.val with
    | RemoteVal.summaryVal v => v
    | _ => dflt
  | none => dflt

def s3ReadDev (s : S3Store) (k : String) (dflt : List (String × PluginDevInfo)) :
    List (String × PluginDevInfo) :=
  match lookupEntry k s with
  | some obj =>
    match obj.val with
    | RemoteVal.devVal v => v
    | _ => dflt
  | none => dflt

/-- Remote-store operations performed by the report runner, in order.
`uploadLogo`, `uploadPackages` and `uploadTestFiles` move binary assets,
not JSON records, so they appear only as events. -/
inductive S3Op where
  | opExists (key : String)
  | opRead (key : String)
  | opWrite (key : String)
  | opUploadLogo (remote : String)
  | opUploadPackages (remote : String)
  | opUploadTestFiles (remote : String)
deriving Repr, DecidableEq

/-- Ambient inputs of one report run: the manifest loaded from
`ci/dist/plugin.json`, the collaborator summaries, the CI environment
(`getPullRequestNumber`, `getBuildNumber`), the logo reference returned by
`uploadLogo`, and the `upload` option. -/
structure ReportInputs where
  pluginMeta : PluginMeta
  packageInfo : String
  workflow : String
  coverage : String
  tests : String
  artifactsBaseURL : String
  grafanaVersion : String
  pr : Option Nat
  buildNumber : Nat
  logo : Option String
  upload : Bool
deriving Repr, DecidableEq

/-- The `report` object of lines 327–339 (`pullRequest` attached only for
PR runs — `if (pr) report.pullRequest = pr` collapses to carrying `pr`). -/
def reportOf (inp : ReportInputs) : PluginBuildReport :=
  { plugin := inp.pluginMeta
    packages := inp.packageInfo
    workflow := inp.workflow
    coverage := inp.coverage
    tests := inp.tests
    artifactsBaseURL := inp.artifactsBaseURL
    grafanaVersion := inp.grafanaVersion
    pullRequest := inp.pr }

/-- The fallback `branch = build.branch || 'unknown'` (line 358). -/
def runBranch (b : PluginBuildInfo) : String := b.branch.getD "unknown"

/-- The `latest` record of lines 379–392: the manifest's build record with
`number` set to the build number and, for PR runs, `pr` set. -/
def latestOf (inp : ReportInputs) (b : PluginBuildInfo) : PluginDevInfo :=
  let withNumber : PluginBuildInfo := { b with number := some inp.buildNumber }
  { pluginId := inp.pluginMeta.id
    name := inp.pluginMeta.name
    logo := inp.logo
    build :=
      match inp.pr with
      | some p => { withNumber with pr := some p }
      | none => withNumber
    version := inp.pluginMeta.info.version.getD "unknown" }

/-- The Job Key of one run (`dirKey + '/index.json'`, line 363). -/
def runJobKey (inp : ReportInputs) (b : PluginBuildInfo) : String :=
  jobKeyOf inp.pluginMeta.id inp.pr (runBranch b) inp.buildNumber

/-- The History Key of one run (`base + 'history.json'`, line 394). -/
def runHistoryKey (inp : ReportInputs) (b : PluginBuildInfo) : String :=
  historyKeyOf inp.pluginMeta.id inp.pr (runBranch b)

/-- The `Tagging` string of the job-key write (line 370):
`version=${version}&type=${pluginMeta.type}` with
`version = pluginMeta.info.version || 'unknown'`. -/
def runTagging (inp : ReportInputs) : String :=
  "version=" ++ inp.pluginMeta.info.version.getD "unknown" ++ "&type=" ++ inp.pluginMeta.type

/-- The per-plugin index update of lines 419–423:
`index.pr[pr] = latest` for PR runs, `index.branch[branch] = latest`
otherwise. -/
def updateSummary (pr : Option Nat) (branch : String) (latest : PluginDevInfo)
    (index : PluginDevSummary) : PluginDevSummary :=
  match pr with
  | some p => { index with pr := setEntry p latest index.pr }
  | none => { index with branch := setEntry branch latest index.branch }

/-- Outcome of one report run: the remote store afterwards, the remote
operations performed in order, whether the local `ci/report.json` write
was initiated (line 343), and the fatal error, if any. -/
structure ReportResult where
  store : S3Store
  events : List S3Op
  localReportWritten : Bool
  error : Option String
deriving Repr, DecidableEq

/-- Shallow embedding of `pluginReportRunner` (lines 318–431).

The in-scope logic is kept line for line: assemble the report, initiate
the local report write, fail on a manifest without build info, derive the
keys, refuse an occupied Job Key, write the report with its tagging,
upload the logo, read-append-write the scoped history (through the
`appendHistory` collaborator from `plugins/utils`), optionally upload
packages and test files, then read-merge-write the per-plugin and global
indexes. -/
def pluginReportRunner
    (appendHistory : PluginBuildReport → PluginDevInfo → PluginHistory → PluginHistory)
    (inp : ReportInputs) (s3 : S3Store) : ReportResult :=
  let report := reportOf inp
  match inp.pluginMeta.info.build with
  | none =>
    { store := s3, events := [], localReportWritten := true
      error := some "Metadata missing build info" }
  | some build =>
    let version := inp.pluginMeta.info.version.getD "unknown"
    let branch := runBranch build
    let root := rootOf inp.pluginMeta.id
    let dirKey := dirKeyOf inp.pluginMeta.id inp.pr branch inp.buildNumber
    let jobKey := dirKey ++ "/index.json"
    if (lookupEntry jobKey s3).isSome then
      { store := s3, events := [S3Op.opExists jobKey], localReportWritten := true
        error := some ("Job already registered: " ++ jobKey) }
    else
      let s3a := setEntry jobKey
        { val := RemoteVal.reportVal report
          tagging := some ("version=" ++ version ++ "&type=" ++ inp.pluginMeta.type) } s3
      let latest := latestOf inp build
      let base := historyBaseOf inp.pluginMeta.id inp.pr branch
      let historyKey := base ++ "history.json"
      let history := s3ReadHistory s3a historyKey defaultPluginHistory
      let history2 := appendHistory report latest history
      let s3b := setEntry historyKey { val := RemoteVal.historyVal history2, tagging := none } s3a
      let uploadEvents :=
        if inp.upload then
          [S3Op.opUploadPackages (dirKey ++ "/packages"), S3Op.opUploadTestFiles dirKey]
        else []
      let indexKey := root ++ "/index.json"
      let index := s3ReadSummary s3b indexKey { branch := [], pr := [] }
      let index2 := updateSummary inp.pr branch latest index
      let s3c := setEntry indexKey { val := RemoteVal.summaryVal index2, tagging := none } s3b
      let dev := s3ReadDev s3c devIndexKey []
      let dev2 := setEntry inp.pluginMeta.id latest dev
      let s3d := setEntry devIndexKey { val := RemoteVal.devVal dev2, tagging := none } s3c
      { store := s3d
        events :=
          [S3Op.opExists jobKey, S3Op.opWrite jobKey, S3Op.opUploadLogo root,
            S3Op.opRead historyKey, S3Op.opWrite historyKey] ++ uploadEvents ++
          [S3Op.opRead indexKey, S3Op.opWrite indexKey, S3Op.opRead devIndexKey,
            S3Op.opWrite devIndexKey]
        localReportWritten := true
        error := none }

/-! ## Build Stage (`buildPluginRunner`, lines 55–82)

The runner is embedded as the ordered trace of its observable actions.
Asynchrony is made explicit: an awaited delegate contributes a
`delegateSpawned` event followed by `delegateCompleted` before control
returns; a delegate that is spawned but not awaited contributes only
`delegateSpawned` — its completion is never observed by the runner, so it
cannot precede any later event of the trace. This captures the backend
branch, where `execa('make', ['backend-plugin-ci']).stdout.pipe(...)`
discards the promise, while the frontend branch does
`await pluginBuildRunner({ coverage: true })`. -/

inductive BuildEvent where
  | jobFolderCleared
  | delegateSpawned (backend : Bool)
  | delegateCompleted
  | folderMoved (name : String)
  | statsWritten
deriving Repr, DecidableEq

/-- Ambient state of one build run: whether a `Makefile` exists in the
working directory (backend precondition, line 63), whether the awaited
frontend delegate succeeds, and which output folders the delegate's work
left in the working directory. -/
structure BuildInputs where
  makefileExists : Bool
  frontendBuildOk : Bool
  distExists : Bool
  coverageExists : Bool
deriving Repr, DecidableEq

structure BuildResult where
  events : List BuildEvent
  error : Option String
deriving Repr, DecidableEq

/-- The move loop of lines 75–80: `renameSync` each of `dist` and
`coverage` into the job folder when present. -/
def movePhase (inp : BuildInputs) : List BuildEvent :=
  (if inp.distExists then [BuildEvent.folderMoved "dist"] else []) ++
  (if inp.coverageExists then [BuildEvent.folderMoved "coverage"] else [])

/-- Shallow embedding of `buildPluginRunner` (lines 55–82). -/
def buildPluginRunner (backend : Bool) (inp : BuildInputs) : BuildResult :=
  if backend then
    if !inp.makefileExists then
      { events := [BuildEvent.jobFolderCleared]
        error := some "Missing Makefile. A Makefile is required for backend plugins." }
    else
      { events := [BuildEvent.jobFolderCleared, BuildEvent.delegateSpawned true] ++
          movePhase inp ++ [BuildEvent.statsWritten]
        error := none }
  else
    if inp.frontendBuildOk then
      { events := [BuildEvent.jobFolderCleared, BuildEvent.delegateSpawned false,
          BuildEvent.delegateCompleted] ++ movePhase inp ++ [BuildEvent.statsWritten]
        error := none }
    else
      { events := [BuildEvent.jobFolderCleared, BuildEvent.delegateSpawned false]
        error := some "pluginBuildRunner failed" }

/-- The property claimed of the Build Stage: every move of an output
folder comes after the delegate has completed. -/
def movedOnlyAfterDelegate (evs : List BuildEvent) : Prop :=
  ∀ pre name post, evs = pre ++ BuildEvent.folderMoved name :: post →
    BuildEvent.delegateCompleted ∈ pre

/-! ## Package Stage (`packagePluginRunner`, lines 129–230)

Directories are association lists from relative paths to file data; the
canonical distribution tree `ci/dist/<pluginId>` starts empty because the
stage recreates `ci/dist` (lines 136–143). -/

/-- File contents: opaque bytes, or a parsed plugin manifest for
`plugin.json` (the manifest reader/writer collaborator works at this
level). -/
inductive FileData where
  | bytes (s : String)
  | manifest (m : PluginMeta)
deriving Repr, DecidableEq

/-- The copy collaborator invoked as `cp -rn src/. dest` (lines 150, 159):
copies every file whose relative path is absent from the destination,
never overwrites an existing path, and reports a conflict (second
component `true`) precisely when some source path was already present. -/
def cpNoClobber : List (String × FileData) → List (String × FileData) →
    List (String × FileData) × Bool
  | [], dest => (dest, false)
  | f :: fs, dest =>
    if (lookupEntry f.1 dest).isSome then
      ((cpNoClobber fs dest).1, true)
    else cpNoClobber fs (dest ++ [f])

inductive PackageError where
  /-- An unguarded copy failure (the local-dist `cp` of line 150 is not
  wrapped in `try`, so a conflict there surfaces as the raw process
  error). -/
  | copyFailed
  /-- The error `'Duplicate files found in dist folders'` (line 161). -/
  | duplicateDistFiles
  /-- Modelled from the spec: `getPluginJson` (in
  `config/utils/pluginValidation`, not under `src/`) fails when the
  manifest file is absent — "missing manifest file is fatal" (§4.3). -/
  | missingManifest (path : String)
  /-- The error `'Invalid zip file: ' + zipFile` (line 185). -/
  | invalidZip (zipFile : String)
deriving Repr, DecidableEq

/-- Ambient inputs of one package run: the working directory's `dist`
folder if present, the `ci/jobs` listing (in directory order) with each
job's optional `dist` subfolder, the build info stamped into the manifest,
and the size `statSync` reports for the produced archive. -/
structure PackageInputs where
  localDist : Option (List (String × FileData))
  jobs : List (String × Option (List (String × FileData)))
  buildInfo : PluginBuildInfo
  zipSize : Nat
deriving Repr, DecidableEq

/-- Successful outcome: the canonical tree (with the stamped manifest
persisted back into it) and the archive name. -/
structure PackageSuccess where
  tree : List (String × FileData)
  zipName : String
deriving Repr, DecidableEq

/-- The job-folder loop of lines 154–164: each `ci/jobs/<j>/dist` that
exists is copied into the tree with `cp -rn`; a reported conflict throws
`'Duplicate files found in dist folders'` and ends the loop. -/
def mergeJobs : List (String × Option (List (String × FileData))) →
    List (String × FileData) → Except PackageError (List (String × FileData))
  | [], t => Except.ok t
  | j :: rest, t =>
    match j.2 with
    | none => mergeJobs rest t
    | some files =>
      let r := cpNoClobber files t
      if r.2 then Except.error PackageError.duplicateDistFiles
      else mergeJobs rest r.1

/-- The merge of lines 147–164: the local `dist` folder is copied into
the freshly created (empty) canonical tree, then each job folder's `dist`
is copied in listing order; only the job-folder copies are wrapped in
`try`, whose handler throws the duplicate-files error — a conflict in the
unguarded local-dist copy would surface as the raw process failure. -/
def mergeDist (localDist : Option (List (String × FileData)))
    (jobs : List (String × Option (List (String × FileData)))) :
    Except PackageError (List (String × FileData)) :=
  match localDist with
  | none => mergeJobs jobs []
  | some files =>
    let r := cpNoClobber files []
    if r.2 then Except.error PackageError.copyFailed
    else mergeJobs jobs r.1

/-- JavaScript string coercion: `'' + undefined` renders as
`"undefined"`, which is what `pluginInfo.id + '-' + pluginInfo.info.version`
produces for a manifest without a version. -/
def jsToString (v : Option String) : String := v.getD "undefined"

/-- Shallow embedding of `packagePluginRunner` (lines 129–230): merge the
dist contributions, load the manifest from the canonical tree, stamp its
build info and persist it, zip the tree and verify the archive size. The
remaining steps (grafana-test-env setup, docs zip, `info.json`,
`custom.ini`) only propagate collaborator write errors and add nothing to
the tree, so the run's outcome is fixed here. -/
def packagePluginRunner (inp : PackageInputs) : Except PackageError PackageSuccess :=
  match mergeDist inp.localDist inp.jobs with
  | Except.error e => Except.error e
  | Except.ok tree =>
    match lookupEntry "plugin.json" tree with
    | some (FileData.manifest pluginInfo) =>
      let stamped : PluginMeta :=
        { pluginInfo with info := { pluginInfo.info with build := some inp.buildInfo } }
      let tree2 := setEntry "plugin.json" (FileData.manifest stamped) tree
      let zipName := pluginInfo.id ++ "-" ++ jsToString pluginInfo.info.version ++ ".zip"
      if inp.zipSize < 100 then
        Except.error (PackageError.invalidZip ("packages/" ++ zipName))
      else Except.ok { tree := tree2, zipName := zipName }
    | _ => Except.error (PackageError.missingManifest "plugin.json")

/-- The relative paths of a directory. -/
def pathsOf (files : List (String × FileData)) : List String := files.map Prod.fst

/-- The dist contributions of a run, in merge order: the local `dist`
folder if present, then each existing job `dist` folder. -/
def contribsOf (localDist : Option (List (String × FileData)))
    (jobs : List (String × Option (List (String × FileData)))) :
    List (List (String × FileData)) :=
  (match localDist with
   | some files => [files]
   | none => []) ++ jobs.filterMap Prod.snd

/-- Predicate `disjointFrom a b` holds when no path of `a` occurs in `b`. -/
def disjointFrom (a b : List String) : Bool := a.all (fun p => !b.contains p)

/-- No two of the given path sets share a path. -/
def allDisjoint : List (List String) → Bool
  | [] => true
  | a :: rest => rest.all (disjointFrom a) && allDisjoint rest

/-! ## Test Stage (`testPluginRunner`, lines 240–309) -/

/-- The mutable `results` record (`TestResultsInfo` of `plugins/types`):
pass/fail counts, screenshots, the instance's build-info snapshot and the
captured error. -/
structure TestResultsInfo where
  job : String
  passed : Nat
  failed : Nat
  screenshots : List String
  grafana : Option String
  error : Option String
deriving Repr, DecidableEq

deriving instance DecidableEq for Except

/-- Outcomes of the collaborators the test stage talks to: the two axios
queries, the plugin under test from `getEndToEndSettings()`, the template
copy, the end-to-end runner (returning pass/fail counts), the images
found in the job folder, and whether the scratch/output directory setup
succeeds. -/
structure TestOracles where
  jobName : String
  outputSetupOk : Bool
  tempSetupOk : Bool
  frontendSettings : Except String String
  loadedMeta : Except String PluginMeta
  settingsPlugin : PluginMeta
  copyTemplateOk : Bool
  e2e : Except String (Nat × Nat)
  outputImages : List String
deriving Repr, DecidableEq

/-- The version check of lines 272–279: if the instance's record for the
plugin carries build info, its hash must equal
`settings.plugin.info.build!.hash`; the non-null assertion on a missing
artifact build record raises a TypeError, and a differing hash raises
`'Wrong plugin version'` — both inside the `try`. -/
def checkVersion (loaded : PluginMeta) (artifact : PluginMeta) : Except String Unit :=
  match loaded.info.build with
  | none => Except.ok ()
  | some lb =>
    match artifact.info.build with
    | none => Except.error "TypeError: cannot read hash of undefined"
    | some ab =>
      if lb.hash ≠ ab.hash then Except.error "Wrong plugin version"
      else Except.ok ()

/-- The initial results record of line 243. -/
def initResults (o : TestOracles) : TestResultsInfo :=
  { job := o.jobName, passed := 0, failed := 0, screenshots := []
    grafana := none, error := none }

/-- The `try` block of lines 262–294: query the instance settings, query
the plugin's record, check version hashes, stage the test template, run
the end-to-end tests; the `catch` stores the first exception in
`results.error`. -/
def tryPhase (o : TestOracles) (results : TestResultsInfo) : TestResultsInfo :=
  match o.frontendSettings with
  | Except.error e => { results with error := some e }
  | Except.ok gi =>
    let results := { results with grafana := some gi }
    match o.loadedMeta with
    | Except.error e => { results with error := some e }
    | Except.ok meta =>
      match checkVersion meta o.settingsPlugin with
      | Except.error e => { results with error := some e }
      | Except.ok _ =>
        if !o.copyTemplateOk then { results with error := some "copy template failed" }
        else
          match o.e2e with
          | Except.error e => { results with error := some e }
          | Except.ok counts =>
            { results with passed := counts.1, failed := counts.2 }

/-- Outcome of one test run: the fatal setup error if any, whether runner
output was copied to the job folder, and the `results.json` content
written there. -/
structure TestStageResult where
  fatal : Option String
  copiedToJob : Bool
  written : Option TestResultsInfo
deriving Repr, DecidableEq

/-- Shallow embedding of `testPluginRunner` (lines 240–309): recreate the
output and scratch directories (fatal on failure, lines 254–260), run the
`try` block, then unconditionally copy the output into the job folder,
scan it for screenshots and write `results.json`. -/
def testPluginRunner (o : TestOracles) : TestStageResult :=
  if !o.outputSetupOk then
    { fatal := some "cannot create output folder", copiedToJob := false, written := none }
  else if !o.tempSetupOk then
    { fatal := some "cannot create e2e-temp folder", copiedToJob := false, written := none }
  else
    let results := tryPhase o (initResults o)
    let results2 := { results with screenshots := o.outputImages }
    { fatal := none, copiedToJob := true, written := some results2 }

/-! ## Concrete fixtures used by witnesses and counterexamples -/

def buildMain : PluginBuildInfo :=
  { branch := some "main", hash := some "abc123", number := none, pr := none }

def buildFeatureX : PluginBuildInfo :=
  { branch := some "feature-x", hash := some "def456", number := none, pr := none }

def metaPanel (build : Option PluginBuildInfo) : PluginMeta :=
  { id := "my-panel", name := "My Panel", type := "panel"
    info := { version := some "1.0.0", build := build } }

/-- Report inputs with fixed collaborator payloads. -/
def baseInputs (m : PluginMeta) (pr : Option Nat) (buildNumber : Nat) : ReportInputs :=
  { pluginMeta := m, packageInfo := "packageDetails", workflow := "workflowInfo"
    coverage := "coverageInfo", tests := "testInfo"
    artifactsBaseURL := "https://circleci.example/artifacts"
    grafanaVersion := "7.0.0", pr := pr, buildNumber := buildNumber
    logo := some "img/logo.png", upload := false }

/-- Identity stand-in for the `appendPluginHistory` collaborator in
concrete witnesses (the report runner is verified for every collaborator). -/
def appendNoop : PluginBuildReport → PluginDevInfo → PluginHistory → PluginHistory :=
  fun _ _ h => h

/-- The scenario of the specification: plugin `my-panel`, PR 42, build 17. -/
def inpC5 : ReportInputs := baseInputs (metaPanel (some buildMain)) (some 42) 17

/-- A branch run used by the idempotency witness. -/
def inpIdem : ReportInputs := baseInputs (metaPanel (some buildMain)) none 21

/-- A manifest whose `info.build` is absent. -/
def inpNoBuild : ReportInputs := baseInputs (metaPanel none) none 7

/-- A branch run with no recorded branch and no version. -/
def inpUnknown : ReportInputs :=
  baseInputs
    { id := "my-datasource", name := "My Datasource", type := "datasource"
      info := { version := none
                build := some { branch := none, hash := none, number := none, pr := none } } }
    none 5

/-- Prior history-index records for branches `main` and `feature-x`. -/
def latestMainRec : PluginDevInfo :=
  { pluginId := "my-panel", name := "My Panel", logo := some "img/logo.png"
    build := { branch := some "main", hash := some "oldmain", number := some 11, pr := none }
    version := "0.9.0" }

def latestFeatureXRec : PluginDevInfo :=
  { pluginId := "my-panel", name := "My Panel", logo := some "img/logo.png"
    build := { branch := some "feature-x", hash := some "oldfx", number := some 12, pr := none }
    version := "0.9.1" }

/-- A prior per-plugin index holding `main` and `feature-x` entries. -/
def idxPrior : PluginDevSummary :=
  { branch := [("main", latestMainRec), ("feature-x", latestFeatureXRec)], pr := [] }

/-- A store holding only the prior per-plugin index. -/
def s3Prior : S3Store :=
  [(indexKeyOf "my-panel", ⟨RemoteVal.summaryVal idxPrior, none⟩)]

/-- A `feature-x` branch run at build 18. -/
def inpFeatureX : ReportInputs := baseInputs (metaPanel (some buildFeatureX)) none 18

/-- Build inputs producing both output folders with all preconditions met. -/
def buildInputsFull : BuildInputs :=
  { makefileExists := true, frontendBuildOk := true, distExists := true
    coverageExists := true }

/-- A frontend dist contribution carrying the manifest. -/
def distFrontend : List (String × FileData) :=
  [("plugin.json", FileData.manifest (metaPanel none)),
    ("module.js", FileData.bytes "frontendModule")]

/-- A backend dist contribution. -/
def distBackend : List (String × FileData) :=
  [("gpx_plugin_linux_amd64", FileData.bytes "backendBinary")]

/-- Disjoint contributions: a local dist plus one backend job. -/
def pkgInputsOk : PackageInputs :=
  { localDist := some distFrontend, jobs := [("build_1", some distBackend), ("docs_1", none)]
    buildInfo := buildMain, zipSize := 5000 }

/-- Two jobs contributing the same relative path. -/
def pkgInputsDup : PackageInputs :=
  { localDist := some distFrontend
    jobs := [("build_1", some distBackend), ("build_2", some distBackend)]
    buildInfo := buildMain, zipSize := 5000 }

/-- No local dist and no job contributed a dist folder. -/
def pkgInputsEmpty : PackageInputs :=
  { localDist := none, jobs := [("build_1", none)], buildInfo := buildMain, zipSize := 5000 }

/-- A merge whose produced archive is under the size threshold. -/
def pkgInputsSmallZip : PackageInputs :=
  { localDist := some distFrontend, jobs := [], buildInfo := buildMain, zipSize := 50 }

/-- Test-stage oracles whose end-to-end runner throws. -/
def oraclesE2eFail : TestOracles :=
  { jobName := "test_1", outputSetupOk := true, tempSetupOk := true
    frontendSettings := Except.ok "7.0.0-build-77"
    loadedMeta := Except.ok (metaPanel (some buildMain))
    settingsPlugin := metaPanel (some buildMain), copyTemplateOk := true
    e2e := Except.error "end-to-end tests threw", outputImages := ["panel.png"] }

/-! ## Association-list lemmas -/

theorem lookupEntry_setEntry_self {α β : Type} [DecidableEq α] (k : α) (v : β)
    (l : List (α × β)) : lookupEntry k (setEntry k v l) = some v := by
  induction l with
  | nil => simp [setEntry, lookupEntry]
  | cons e rest ih =>
    by_cases h : e.1 = k
    · simp [setEntry, h, lookupEntry]
    · simp [setEntry, h, lookupEntry, ih]

theorem lookupEntry_setEntry_ne {α β : Type} [DecidableEq α] {k k' : α} (v : β)
    (l : List (α × β)) (h : k ≠ k') : lookupEntry k (setEntry k' v l) = lookupEntry k l := by
  induction l with
  | nil => simp [setEntry, lookupEntry, Ne.symm h]
  | cons e rest ih =>
    by_cases he : e.1 = k'
    · simp [setEntry, he, lookupEntry, Ne.symm h]
    · by_cases hk : e.1 = k
      · simp [setEntry, he, lookupEntry, hk, h]
      · simp [setEntry, he, lookupEntry, hk, ih]

/-! ### Distinctness of the four remote keys

The report runner writes, in order: the job key, the history key, the
per-plugin index key and the global index key. The frame reasoning below
needs these to be pairwise distinct strings. -/

theorem ne_of_data_ne {s t : String} (h : s.data ≠ t.data) : s ≠ t :=
  fun he => h (congrArg String.data he)

/-- Any string ending in `/index.json` differs from any string ending in
`history.json`: the reversed character lists disagree at position 5. -/
theorem append_index_ne_append_history (x y : String) :
    x ++ "/index.json" ≠ y ++ "history.json" := by
  apply ne_of_data_ne
  intro h
  have h' : ((x ++ "/index.json").data).reverse = ((y ++ "history.json").data).reverse := by
    rw [h]
  rw [String.data_append, String.data_append, List.reverse_append, List.reverse_append] at h'
  have e1 : "/index.json".data.reverse = ['n','o','s','j','.','x','e','d','n','i','/'] := by
    decide
  have e2 : "history.json".data.reverse = ['n','o','s','j','.','y','r','o','t','s','i','h'] := by
    decide
  rw [e1, e2] at h'
  simp only [List.cons_append] at h'
  injection h' with h1 h'; injection h' with h2 h'; injection h' with h3 h'
  injection h' with h4 h'; injection h' with h5 h'; injection h' with h6 h'
  exact absurd h6 (by decide)

theorem jobKey_ne_historyKey (pluginId : String) (pr : Option Nat) (branch : String)
    (buildNumber : Nat) :
    jobKeyOf pluginId pr branch buildNumber ≠ historyKeyOf pluginId pr branch :=
  append_index_ne_append_history _ _

theorem indexKey_ne_historyKey (pluginId pluginId' : String) (pr : Option Nat)
    (branch : String) : indexKeyOf pluginId ≠ historyKeyOf pluginId' pr branch :=
  append_index_ne_append_history _ _

theorem jobKey_ne_indexKey (pluginId : String) (pr : Option Nat)
    (branch : String) (buildNumber : Nat) :
    jobKeyOf pluginId pr branch buildNumber ≠ indexKeyOf pluginId := by
  apply ne_of_data_ne
  intro h
  cases pr with
  | some p =>
    simp only [jobKeyOf, dirKeyOf, indexKeyOf, String.data_append, List.append_assoc] at h
    have h' := List.append_cancel_left h
    simp only [List.cons_append, List.nil_append] at h'
    injection h' with h1 h'; injection h' with h2 h'
    exact absurd h2 (by decide)
  | none =>
    simp only [jobKeyOf, dirKeyOf, indexKeyOf, String.data_append, List.append_assoc] at h
    have h' := List.append_cancel_left h
    simp only [List.cons_append, List.nil_append] at h'
    injection h' with h1 h'; injection h' with h2 h'
    exact absurd h2 (by decide)

theorem jobKey_ne_devIndexKey (pluginId : String) (pr : Option Nat) (branch : String)
    (buildNumber : Nat) : jobKeyOf pluginId pr branch buildNumber ≠ devIndexKey := by
  apply ne_of_data_ne
  intro h
  have h' := congrArg List.length h
  cases pr with
  | some p =>
    simp only [jobKeyOf, dirKeyOf, rootOf, devIndexKey, String.data_append,
      List.length_append] at h'
    have e0 : "dev/".data.length = 4 := by decide
    have e1 : "/pr/".data.length = 4 := by decide
    have e2 : "/".data.length = 1 := by decide
    have e3 : "/index.json".data.length = 11 := by decide
    have e4 : "dev/index.json".data.length = 14 := by decide
    rw [e0, e1, e2, e3, e4] at h'
    omega
  | none =>
    simp only [jobKeyOf, dirKeyOf, rootOf, devIndexKey, String.data_append,
      List.length_append] at h'
    have e0 : "dev/".data.length = 4 := by decide
    have e1 : "/branch/".data.length = 8 := by decide
    have e2 : "/".data.length = 1 := by decide
    have e3 : "/index.json".data.length = 11 := by decide
    have e4 : "dev/index.json".data.length = 14 := by decide
    rw [e0, e1, e2, e3, e4] at h'
    omega

theorem indexKey_ne_devIndexKey (pluginId : String) : indexKeyOf pluginId ≠ devIndexKey := by
  apply ne_of_data_ne
  intro h
  have h' := congrArg List.length h
  simp only [indexKeyOf, rootOf, devIndexKey, String.data_append, List.length_append] at h'
  have e0 : "dev/".data.length = 4 := by decide
  have e1 : "/index.json".data.length = 11 := by decide
  have e2 : "dev/index.json".data.length = 14 := by decide
  rw [e0, e1, e2] at h'
  omega

/-! ## Report runner reduction lemmas -/

/-- Unfolding of a report run whose manifest carries build info and whose
Job Key is unoccupied: the four JSON writes and the event sequence. -/
theorem pluginReportRunner_fresh_eq
    (appendHistory : PluginBuildReport → PluginDevInfo → PluginHistory → PluginHistory)
    (inp : ReportInputs) (s3 : S3Store) (b : PluginBuildInfo)
    (hb : inp.pluginMeta.info.build = some b)
    (hfresh : lookupEntry (runJobKey inp b) s3 = none) :
    pluginReportRunner appendHistory inp s3 =
      let report := reportOf inp
      let jobKey := runJobKey inp b
      let s3a := setEntry jobKey ⟨RemoteVal.reportVal report, some (runTagging inp)⟩ s3
      let latest := latestOf inp b
      let historyKey := runHistoryKey inp b
      let history2 :=
        appendHistory report latest (s3ReadHistory s3a historyKey defaultPluginHistory)
      let s3b := setEntry historyKey ⟨RemoteVal.historyVal history2, none⟩ s3a
      let indexKey := indexKeyOf inp.pluginMeta.id
      let index2 :=
        updateSummary inp.pr (runBranch b) latest (s3ReadSummary s3b indexKey ⟨[], []⟩)
      let s3c := setEntry indexKey ⟨RemoteVal.summaryVal index2, none⟩ s3b
      let dev2 := setEntry inp.pluginMeta.id latest (s3ReadDev s3c devIndexKey [])
      let s3d := setEntry devIndexKey ⟨RemoteVal.devVal dev2, none⟩ s3c
      { store := s3d
        events :=
          [S3Op.opExists jobKey, S3Op.opWrite jobKey,
            S3Op.opUploadLogo (rootOf inp.pluginMeta.id), S3Op.opRead historyKey,
            S3Op.opWrite historyKey] ++
          (if inp.upload then
            [S3Op.opUploadPackages
                (dirKeyOf inp.pluginMeta.id inp.pr (runBranch b) inp.buildNumber ++ "/packages"),
              S3Op.opUploadTestFiles
                (dirKeyOf inp.pluginMeta.id inp.pr (runBranch b) inp.buildNumber)]
          else []) ++
          [S3Op.opRead indexKey, S3Op.opWrite indexKey, S3Op.opRead devIndexKey,
            S3Op.opWrite devIndexKey]
        localReportWritten := true
        error := none } := by
  simp only [runJobKey, jobKeyOf] at hfresh
  simp only [pluginReportRunner, hb, hfresh, Option.isSome_none, Bool.false_eq_true,
    if_false, runJobKey, jobKeyOf, runHistoryKey, historyKeyOf, indexKeyOf, runTagging]

theorem s3ReadSummary_setEntry_ne {k k' : String} (v : S3Object) (s : S3Store)
    (dflt : PluginDevSummary) (h : k ≠ k') :
    s3ReadSummary (setEntry k' v s) k dflt = s3ReadSummary s k dflt := by
  unfold s3ReadSummary
  rw [lookupEntry_setEntry_ne _ _ h]

/-- The record written at the Job Key survives the three later writes. -/
theorem run_fresh_store_jobKey
    (appendHistory : PluginBuildReport → PluginDevInfo → PluginHistory → PluginHistory)
    (inp : ReportInputs) (s3 : S3Store) (b : PluginBuildInfo)
    (hb : inp.pluginMeta.info.build = some b)
    (hfresh : lookupEntry (runJobKey inp b) s3 = none) :
    lookupEntry (runJobKey inp b) (pluginReportRunner appendHistory inp s3).store =
      some ⟨RemoteVal.reportVal (reportOf inp), some (runTagging inp)⟩ := by
  have hKD : runJobKey inp b ≠ devIndexKey := jobKey_ne_devIndexKey _ _ _ _
  have hKI : runJobKey inp b ≠ indexKeyOf inp.pluginMeta.id := jobKey_ne_indexKey _ _ _ _
  have hKH : runJobKey inp b ≠ runHistoryKey inp b := jobKey_ne_historyKey _ _ _ _
  rw [pluginReportRunner_fresh_eq appendHistory inp s3 b hb hfresh]
  simp only []
  rw [lookupEntry_setEntry_ne _ _ hKD, lookupEntry_setEntry_ne _ _ hKI,
    lookupEntry_setEntry_ne _ _ hKH, lookupEntry_setEntry_self]

/-- The per-plugin index written by a fresh run is the prior index of the
store, merged under the current branch or PR key. -/
theorem run_fresh_store_indexKey
    (appendHistory : PluginBuildReport → PluginDevInfo → PluginHistory → PluginHistory)
    (inp : ReportInputs) (s3 : S3Store) (b : PluginBuildInfo)
    (hb : inp.pluginMeta.info.build = some b)
    (hfresh : lookupEntry (runJobKey inp b) s3 = none) :
    lookupEntry (indexKeyOf inp.pluginMeta.id) (pluginReportRunner appendHistory inp s3).store =
      some ⟨RemoteVal.summaryVal
        (updateSummary inp.pr (runBranch b) (latestOf inp b)
          (s3ReadSummary s3 (indexKeyOf inp.pluginMeta.id) ⟨[], []⟩)), none⟩ := by
  have hKI : runJobKey inp b ≠ indexKeyOf inp.pluginMeta.id := jobKey_ne_indexKey _ _ _ _
  have hIH : indexKeyOf inp.pluginMeta.id ≠ runHistoryKey inp b := indexKey_ne_historyKey _ _ _ _
  have hID : indexKeyOf inp.pluginMeta.id ≠ devIndexKey := indexKey_ne_devIndexKey _
  rw [pluginReportRunner_fresh_eq appendHistory inp s3 b hb hfresh]
  simp only []
  rw [lookupEntry_setEntry_ne _ _ hID, lookupEntry_setEntry_self,
    s3ReadSummary_setEntry_ne _ _ _ hIH, s3ReadSummary_setEntry_ne _ _ _ (Ne.symm hKI)]

/-- A run whose derived Job Key is occupied stops at the idempotency
check: no write happens and the store is returned unchanged. -/
theorem pluginReportRunner_occupied_eq
    (appendHistory : PluginBuildReport → PluginDevInfo → PluginHistory → PluginHistory)
    (inp : ReportInputs) (s3 : S3Store) (b : PluginBuildInfo)
    (hb : inp.pluginMeta.info.build = some b)
    (hocc : (lookupEntry (runJobKey inp b) s3).isSome = true) :
    pluginReportRunner appendHistory inp s3 =
      { store := s3, events := [S3Op.opExists (runJobKey inp b)]
        localReportWritten := true
        error := some ("Job already registered: " ++ runJobKey inp b) } := by
  simp only [runJobKey, jobKeyOf] at hocc
  simp only [pluginReportRunner, hb, hocc, if_true, runJobKey, jobKeyOf]

/-! ## Claim theorems: Report Stage -/

/-- Claim C9: in the Report Stage, a manifest without build-provenance
info fails fatally with `Metadata missing build info` after the local
report write was initiated and before any remote-store operation — no
exists check, no job-key write and no index update happen, and the store
is untouched. -/
theorem C9_missing_build_info_fatal
    (appendHistory : PluginBuildReport → PluginDevInfo → PluginHistory → PluginHistory)
    (inp : ReportInputs) (s3 : S3Store)
    (hb : inp.pluginMeta.info.build = none) :
    pluginReportRunner appendHistory inp s3 =
      { store := s3, events := [], localReportWritten := true
        error := some "Metadata missing build info" } := by
  simp only [pluginReportRunner, hb]

/-- Witness for C9 at a concrete manifest without build info. -/
theorem C9_missing_build_info_fatal_witness :
    inpNoBuild.pluginMeta.info.build = none ∧
    pluginReportRunner appendNoop inpNoBuild [] =
      { store := [], events := [], localReportWritten := true
        error := some "Metadata missing build info" } :=
  ⟨rfl, C9_missing_build_info_fatal appendNoop inpNoBuild [] rfl⟩

/-- Claim C5: for plugin `my-panel`, PR 42, build 17 the Job Key is
`dev/my-panel/pr/42/17/index.json` and the History Key is
`dev/my-panel/pr/42/history.json`; in general the Job Key is the scoped
directory key followed by `/index.json` and the History Key is the scoped
base followed by `history.json`. A run with those parameters lands its
writes at exactly those keys. -/
theorem C5_key_resolution :
    jobKeyOf "my-panel" (some 42) "main" 17 = "dev/my-panel/pr/42/17/index.json" ∧
    historyKeyOf "my-panel" (some 42) "main" = "dev/my-panel/pr/42/history.json" ∧
    (∀ pluginId pr branch buildNumber,
      jobKeyOf pluginId pr branch buildNumber =
        dirKeyOf pluginId pr branch buildNumber ++ "/index.json") ∧
    (∀ pluginId pr branch,
      historyKeyOf pluginId pr branch = historyBaseOf pluginId pr branch ++ "history.json") ∧
    (lookupEntry "dev/my-panel/pr/42/17/index.json"
        (pluginReportRunner appendNoop inpC5 []).store).isSome = true ∧
    (lookupEntry "dev/my-panel/pr/42/history.json"
        (pluginReportRunner appendNoop inpC5 []).store).isSome = true := by
  refine ⟨by decide, by decide, fun _ _ _ _ => rfl, fun _ _ _ => rfl, by decide, by decide⟩

/-- Claim C10: a manifest without a version or a build record without a
branch does not fail the stage — `unknown` is substituted, so a branch
run derives the Job Key `dev/<pluginId>/branch/unknown/<buildNumber>/index.json`
and the record is tagged `version=unknown` (full tag
`version=unknown&type=<type>`). -/
theorem C10_unknown_defaults
    (appendHistory : PluginBuildReport → PluginDevInfo → PluginHistory → PluginHistory)
    (inp : ReportInputs) (s3 : S3Store) (b : PluginBuildInfo)
    (hb : inp.pluginMeta.info.build = some b) (hbr : b.branch = none)
    (hv : inp.pluginMeta.info.version = none) (hpr : inp.pr = none)
    (hfresh : lookupEntry (runJobKey inp b) s3 = none) :
    (pluginReportRunner appendHistory inp s3).error = none ∧
    runJobKey inp b =
      "dev/" ++ inp.pluginMeta.id ++ "/branch/unknown/" ++ toString inp.buildNumber ++
        "/index.json" ∧
    runTagging inp = "version=unknown&type=" ++ inp.pluginMeta.type ∧
    lookupEntry (runJobKey inp b) (pluginReportRunner appendHistory inp s3).store =
      some ⟨RemoteVal.reportVal (reportOf inp), some (runTagging inp)⟩ := by
  refine ⟨?_, ?_, ?_, run_fresh_store_jobKey appendHistory inp s3 b hb hfresh⟩
  · rw [pluginReportRunner_fresh_eq appendHistory inp s3 b hb hfresh]
  · apply String.ext
    simp [runJobKey, jobKeyOf, dirKeyOf, rootOf, runBranch, hbr, hpr, String.data_append,
      List.append_assoc]
  · rw [runTagging, hv]
    have hlit : ("version=" ++ Option.getD none "unknown" ++ "&type=" : String) =
        "version=unknown&type=" := by decide
    rw [hlit]

/-- Witness for C10 at a concrete version-less, branch-less manifest. -/
theorem C10_unknown_defaults_witness :
    inpUnknown.pluginMeta.info.build =
      some { branch := none, hash := none, number := none, pr := none } ∧
    (pluginReportRunner appendNoop inpUnknown []).error = none ∧
    runJobKey inpUnknown { branch := none, hash := none, number := none, pr := none } =
      "dev/" ++ inpUnknown.pluginMeta.id ++ "/branch/unknown/" ++ toString inpUnknown.buildNumber ++
        "/index.json" ∧
    runTagging inpUnknown = "version=unknown&type=" ++ inpUnknown.pluginMeta.type ∧
    lookupEntry (runJobKey inpUnknown { branch := none, hash := none, number := none, pr := none })
        (pluginReportRunner appendNoop inpUnknown []).store =
      some ⟨RemoteVal.reportVal (reportOf inpUnknown), some (runTagging inpUnknown)⟩ := by
  have h := C10_unknown_defaults appendNoop inpUnknown []
    { branch := none, hash := none, number := none, pr := none } rfl rfl rfl rfl rfl
  exact ⟨rfl, h.1, h.2.1, h.2.2.1, h.2.2.2⟩

/-- Claim C1: publishing twice to the same Job Key fails the second time
with `Job already registered` before any remote write — the second run
performs only the exists check, changes nothing in the store, and the
record at the Job Key stays exactly what the first publication wrote. -/
theorem C1_publication_idempotent
    (append₁ append₂ : PluginBuildReport → PluginDevInfo → PluginHistory → PluginHistory)
    (inp₁ inp₂ : ReportInputs) (s3 : S3Store) (b₁ b₂ : PluginBuildInfo)
    (hb₁ : inp₁.pluginMeta.info.build = some b₁)
    (hb₂ : inp₂.pluginMeta.info.build = some b₂)
    (hkey : runJobKey inp₂ b₂ = runJobKey inp₁ b₁)
    (hfresh : lookupEntry (runJobKey inp₁ b₁) s3 = none) :
    (pluginReportRunner append₁ inp₁ s3).error = none ∧
    lookupEntry (runJobKey inp₁ b₁) (pluginReportRunner append₁ inp₁ s3).store =
      some ⟨RemoteVal.reportVal (reportOf inp₁), some (runTagging inp₁)⟩ ∧
    (pluginReportRunner append₂ inp₂ (pluginReportRunner append₁ inp₁ s3).store).error =
      some ("Job already registered: " ++ runJobKey inp₂ b₂) ∧
    (pluginReportRunner append₂ inp₂ (pluginReportRunner append₁ inp₁ s3).store).store =
      (pluginReportRunner append₁ inp₁ s3).store ∧
    (pluginReportRunner append₂ inp₂ (pluginReportRunner append₁ inp₁ s3).store).events =
      [S3Op.opExists (runJobKey inp₂ b₂)] ∧
    lookupEntry (runJobKey inp₁ b₁)
        (pluginReportRunner append₂ inp₂ (pluginReportRunner append₁ inp₁ s3).store).store =
      some ⟨RemoteVal.reportVal (reportOf inp₁), some (runTagging inp₁)⟩ := by
  have hjob := run_fresh_store_jobKey append₁ inp₁ s3 b₁ hb₁ hfresh
  have hocc : (lookupEntry (runJobKey inp₂ b₂)
      (pluginReportRunner append₁ inp₁ s3).store).isSome = true := by
    rw [hkey, hjob]; rfl
  have h2 := pluginReportRunner_occupied_eq append₂ inp₂
    (pluginReportRunner append₁ inp₁ s3).store b₂ hb₂ hocc
  refine ⟨?_, hjob, ?_, ?_, ?_, ?_⟩
  · rw [pluginReportRunner_fresh_eq append₁ inp₁ s3 b₁ hb₁ hfresh]
  · rw [h2]
  · rw [h2]
  · rw [h2]
  · rw [h2]; exact hjob

/-- Witness for C1: the same branch run published twice into an empty
store. -/
theorem C1_publication_idempotent_witness :
    inpIdem.pluginMeta.info.build = some buildMain ∧
    lookupEntry (runJobKey inpIdem buildMain) ([] : S3Store) = none ∧
    ((pluginReportRunner appendNoop inpIdem []).error = none ∧
      lookupEntry (runJobKey inpIdem buildMain) (pluginReportRunner appendNoop inpIdem []).store =
        some ⟨RemoteVal.reportVal (reportOf inpIdem), some (runTagging inpIdem)⟩ ∧
      (pluginReportRunner appendNoop inpIdem
          (pluginReportRunner appendNoop inpIdem []).store).error =
        some ("Job already registered: " ++ runJobKey inpIdem buildMain) ∧
      (pluginReportRunner appendNoop inpIdem
          (pluginReportRunner appendNoop inpIdem []).store).store =
        (pluginReportRunner appendNoop inpIdem []).store ∧
      (pluginReportRunner appendNoop inpIdem
          (pluginReportRunner appendNoop inpIdem []).store).events =
        [S3Op.opExists (runJobKey inpIdem buildMain)] ∧
      lookupEntry (runJobKey inpIdem buildMain)
          (pluginReportRunner appendNoop inpIdem
            (pluginReportRunner appendNoop inpIdem []).store).store =
        some ⟨RemoteVal.reportVal (reportOf inpIdem), some (runTagging inpIdem)⟩) :=
  ⟨rfl, rfl,
    C1_publication_idempotent appendNoop appendNoop inpIdem inpIdem [] buildMain buildMain
      rfl rfl rfl rfl⟩

/-- Claim C7: the per-plugin index update replaces only the entry of the
current branch (or PR) key: the written index holds `latest` at the
current key, every other branch and PR entry is unchanged, and the
opposite map is untouched. -/
theorem C7_index_update_frame
    (appendHistory : PluginBuildReport → PluginDevInfo → PluginHistory → PluginHistory)
    (inp : ReportInputs) (s3 : S3Store) (b : PluginBuildInfo)
    (idx0 : PluginDevSummary) (tg : Option String)
    (hb : inp.pluginMeta.info.build = some b)
    (hfresh : lookupEntry (runJobKey inp b) s3 = none)
    (hidx : lookupEntry (indexKeyOf inp.pluginMeta.id) s3 =
      some ⟨RemoteVal.summaryVal idx0, tg⟩) :
    lookupEntry (indexKeyOf inp.pluginMeta.id) (pluginReportRunner appendHistory inp s3).store =
      some ⟨RemoteVal.summaryVal
        (updateSummary inp.pr (runBranch b) (latestOf inp b) idx0), none⟩ ∧
    (inp.pr = none →
      lookupEntry (runBranch b)
          (updateSummary inp.pr (runBranch b) (latestOf inp b) idx0).branch =
        some (latestOf inp b) ∧
      (∀ br, br ≠ runBranch b →
        lookupEntry br (updateSummary inp.pr (runBranch b) (latestOf inp b) idx0).branch =
          lookupEntry br idx0.branch) ∧
      (updateSummary inp.pr (runBranch b) (latestOf inp b) idx0).pr = idx0.pr) ∧
    (∀ p, inp.pr = some p →
      lookupEntry p (updateSummary inp.pr (runBranch b) (latestOf inp b) idx0).pr =
        some (latestOf inp b) ∧
      (∀ q, q ≠ p →
        lookupEntry q (updateSummary inp.pr (runBranch b) (latestOf inp b) idx0).pr =
          lookupEntry q idx0.pr) ∧
      (updateSummary inp.pr (runBranch b) (latestOf inp b) idx0).branch = idx0.branch) := by
  have hread : s3ReadSummary s3 (indexKeyOf inp.pluginMeta.id) ⟨[], []⟩ = idx0 := by
    unfold s3ReadSummary
    rw [hidx]
  refine ⟨?_, ?_, ?_⟩
  · rw [run_fresh_store_indexKey appendHistory inp s3 b hb hfresh, hread]
  · intro hpr
    refine ⟨?_, ?_, ?_⟩
    · simp [updateSummary, hpr, lookupEntry_setEntry_self]
    · intro br hbr
      simp [updateSummary, hpr, lookupEntry_setEntry_ne _ _ hbr]
    · simp [updateSummary, hpr]
  · intro p hpr
    refine ⟨?_, ?_, ?_⟩
    · simp [updateSummary, hpr, lookupEntry_setEntry_self]
    · intro q hq
      simp [updateSummary, hpr, lookupEntry_setEntry_ne _ _ hq]
    · simp [updateSummary, hpr]

/-- Witness for C7: with prior entries for `main` and `feature-x`,
publishing for `feature-x` leaves the `main` entry untouched. -/
theorem C7_index_update_frame_witness :
    inpFeatureX.pluginMeta.info.build = some buildFeatureX ∧
    lookupEntry (runJobKey inpFeatureX buildFeatureX) s3Prior = none ∧
    lookupEntry (indexKeyOf inpFeatureX.pluginMeta.id) s3Prior =
      some ⟨RemoteVal.summaryVal idxPrior, none⟩ ∧
    lookupEntry (indexKeyOf inpFeatureX.pluginMeta.id)
        (pluginReportRunner appendNoop inpFeatureX s3Prior).store =
      some ⟨RemoteVal.summaryVal
        (updateSummary none "feature-x" (latestOf inpFeatureX buildFeatureX) idxPrior), none⟩ ∧
    lookupEntry "main"
        (updateSummary none "feature-x" (latestOf inpFeatureX buildFeatureX) idxPrior).branch =
      some latestMainRec ∧
    lookupEntry "feature-x"
        (updateSummary none "feature-x" (latestOf inpFeatureX buildFeatureX) idxPrior).branch =
      some (latestOf inpFeatureX buildFeatureX) := by
  have h := C7_index_update_frame appendNoop inpFeatureX s3Prior buildFeatureX idxPrior none
    rfl rfl rfl
  exact ⟨rfl, rfl, rfl, h.1, by decide, (h.2.1 rfl).1⟩

/-! ## Claim theorems: Build Stage -/

/-- Claim C3 (refuted; the code is the slip): in backend mode the
delegate is spawned with `execa('make', ['backend-plugin-ci'])` whose
promise is never awaited, and the `dist`/`coverage` folders are moved into
the job folder immediately afterwards — before the delegate has
completed, contradicting the claimed "move only after the delegate
completes". The theorem evaluates the embedded runner at the failing
input: the trace moves both folders yet contains no completion event. -/
theorem C3_backend_moves_without_await :
    buildPluginRunner true buildInputsFull =
      { events := [BuildEvent.jobFolderCleared, BuildEvent.delegateSpawned true,
          BuildEvent.folderMoved "dist", BuildEvent.folderMoved "coverage",
          BuildEvent.statsWritten]
        error := none } ∧
    BuildEvent.delegateCompleted ∉ (buildPluginRunner true buildInputsFull).events ∧
    ¬ movedOnlyAfterDelegate (buildPluginRunner true buildInputsFull).events := by
  refine ⟨by decide, by decide, ?_⟩
  intro h
  have := h [BuildEvent.jobFolderCleared, BuildEvent.delegateSpawned true] "dist"
    [BuildEvent.folderMoved "coverage", BuildEvent.statsWritten] (by decide)
  exact absurd this (by decide)

/-! ## Package Stage lemmas -/

theorem lookupEntry_eq_none_iff {α β : Type} [DecidableEq α] (k : α) (l : List (α × β)) :
    lookupEntry k l = none ↔ k ∉ l.map Prod.fst := by
  induction l with
  | nil => simp [lookupEntry]
  | cons e rest ih =>
    by_cases h : e.1 = k
    · simp [lookupEntry, h]
    · simp [lookupEntry, h, ih, Ne.symm h]

theorem lookupEntry_isSome_iff {α β : Type} [DecidableEq α] (k : α) (l : List (α × β)) :
    (lookupEntry k l).isSome = true ↔ k ∈ l.map Prod.fst := by
  rw [Option.isSome_iff_ne_none, ne_eq, lookupEntry_eq_none_iff, not_not]

theorem lookupEntry_append {α β : Type} [DecidableEq α] (k : α) (a b : List (α × β)) :
    lookupEntry k (a ++ b) =
      match lookupEntry k a with
      | some v => some v
      | none => lookupEntry k b := by
  induction a with
  | nil => simp [lookupEntry]
  | cons e rest ih =>
    by_cases h : e.1 = k <;> simp [lookupEntry, h, ih]

theorem lookupEntry_of_mem_nodup {α β : Type} [DecidableEq α] {l : List (α × β)} {e : α × β}
    (he : e ∈ l) (hnd : (l.map Prod.fst).Nodup) : lookupEntry e.1 l = some e.2 := by
  induction l with
  | nil => cases he
  | cons f rest ih =>
    rw [List.map_cons, List.nodup_cons] at hnd
    rcases List.mem_cons.mp he with rfl | he'
    · simp [lookupEntry]
    · have hne : f.1 ≠ e.1 := by
        intro hh
        exact hnd.1 (hh ▸ List.mem_map_of_mem Prod.fst he')
      simp [lookupEntry, hne, ih he' hnd.2]

theorem pathsOf_append (a b : List (String × FileData)) :
    pathsOf (a ++ b) = pathsOf a ++ pathsOf b := List.map_append _ _ _

theorem pathsOf_cons (f : String × FileData) (fs : List (String × FileData)) :
    pathsOf (f :: fs) = f.1 :: pathsOf fs := rfl

/-- Copying with `cp -rn` and all source paths fresh: every file is appended and no
conflict is reported. -/
theorem cpNoClobber_disjoint (src : List (String × FileData)) :
    ∀ dest, (pathsOf src).Nodup →
    (∀ p ∈ pathsOf src, lookupEntry p dest = (none : Option FileData)) →
    cpNoClobber src dest = (dest ++ src, false) := by
  induction src with
  | nil => intro dest _ _; simp [cpNoClobber]
  | cons f fs ih =>
    intro dest hnd hdisj
    rw [pathsOf_cons, List.nodup_cons] at hnd
    have h0 : lookupEntry f.1 dest = none := hdisj f.1 (by rw [pathsOf_cons]; simp)
    rw [cpNoClobber, h0]
    simp only [Option.isSome_none, Bool.false_eq_true, if_false]
    rw [ih (dest ++ [f]) hnd.2 ?_]
    · simp
    · intro p hp
      rw [lookupEntry_append]
      rw [hdisj p (by rw [pathsOf_cons]; exact List.mem_cons_of_mem _ hp)]
      have hne : f.1 ≠ p := fun hh => hnd.1 (hh ▸ hp)
      simp [lookupEntry, hne]

/-- Copying with `cp -rn` reports a conflict whenever some source path is already
present in the destination. -/
theorem cpNoClobber_conflict (src : List (String × FileData)) :
    ∀ dest (p : String), p ∈ pathsOf src → (lookupEntry p dest).isSome = true →
    (cpNoClobber src dest).2 = true := by
  induction src with
  | nil => intro dest p hp _; simp [pathsOf] at hp
  | cons f fs ih =>
    intro dest p hp hd
    by_cases h0 : (lookupEntry f.1 dest).isSome = true
    · simp [cpNoClobber, h0]
    · have hne : p ≠ f.1 := fun hh => h0 (hh ▸ hd)
      have hp' : p ∈ pathsOf fs := by
        rcases List.mem_cons.mp (by rw [pathsOf_cons] at hp; exact hp) with hh | hh
        · exact absurd hh hne
        · exact hh
      rw [cpNoClobber, if_neg h0]
      refine ih (dest ++ [f]) p hp' ?_
      rw [lookupEntry_append]
      rcases hx : lookupEntry p dest with _ | v
      · rw [hx] at hd; cases hd
      · simp

theorem disjointFrom_eq_true {a b : List String} :
    disjointFrom a b = true ↔ ∀ p ∈ a, p ∉ b := by
  simp [disjointFrom, List.all_eq_true]

theorem disjointFrom_comm (a b : List String) : disjointFrom a b = disjointFrom b a := by
  cases h : disjointFrom a b with
  | false =>
    cases h' : disjointFrom b a with
    | false => rfl
    | true =>
      have hb := disjointFrom_eq_true.mp h'
      have : disjointFrom a b = true :=
        disjointFrom_eq_true.mpr (fun p hpa hpb => hb p hpb hpa)
      rw [h] at this
      cases this
  | true =>
    cases h' : disjointFrom b a with
    | false =>
      have ha := disjointFrom_eq_true.mp h
      have : disjointFrom b a = true :=
        disjointFrom_eq_true.mpr (fun p hpb hpa => ha p hpa hpb)
      rw [h'] at this
      cases this
    | true => rfl

theorem list_all_and {α : Type} (l : List α) (f g : α → Bool) :
    l.all (fun x => f x && g x) = (l.all f && l.all g) := by
  induction l with
  | nil => rfl
  | cons x xs ih => cases hf : f x <;> cases hg : g x <;> simp [List.all_cons, hf, hg, ih]

theorem allDisjoint_single (a : List String) : allDisjoint [a] = true := by
  simp [allDisjoint]

theorem allDisjoint_nil_cons (r : List (List String)) :
    allDisjoint ([] :: r) = allDisjoint r := by
  have h : r.all (disjointFrom []) = true := by
    rw [List.all_eq_true]
    intro c _
    rfl
  simp [allDisjoint, h]

theorem allDisjoint_cons_cons (a b : List String) (r : List (List String)) :
    allDisjoint (a :: b :: r) = (disjointFrom a b && allDisjoint ((a ++ b) :: r)) := by
  have hsplit : r.all (disjointFrom (a ++ b)) = (r.all (disjointFrom a) && r.all (disjointFrom b)) := by
    rw [← list_all_and]
    congr 1
    funext c
    simp [disjointFrom, List.all_append]
  simp only [allDisjoint, List.all_cons, hsplit]
  cases disjointFrom a b <;> cases r.all (disjointFrom a) <;>
    cases r.all (disjointFrom b) <;> cases allDisjoint r <;> rfl

/-- The job-folder merge loop: with pairwise-disjoint contributions it
appends every existing job dist to the tree; with any overlap it fails
with the duplicate-files error. -/
theorem mergeJobs_spec (jobs : List (String × Option (List (String × FileData)))) :
    ∀ t : List (String × FileData),
    (∀ c ∈ jobs.filterMap Prod.snd, (pathsOf c).Nodup) →
    ((allDisjoint (pathsOf t :: (jobs.filterMap Prod.snd).map pathsOf) = true →
      mergeJobs jobs t = Except.ok (t ++ (jobs.filterMap Prod.snd).flatten)) ∧
     (allDisjoint (pathsOf t :: (jobs.filterMap Prod.snd).map pathsOf) = false →
      mergeJobs jobs t = Except.error PackageError.duplicateDistFiles)) := by
  induction jobs with
  | nil =>
    intro t _
    constructor
    · intro _
      simp [mergeJobs]
    · intro hfalse
      rw [List.filterMap_nil, List.map_nil, allDisjoint_single] at hfalse
      cases hfalse
  | cons j rest ih =>
    intro t hnodup
    cases hj : j.2 with
    | none =>
      have hfm : (j :: rest).filterMap Prod.snd = rest.filterMap Prod.snd := by
        rw [List.filterMap_cons, hj]
      rw [hfm] at hnodup ⊢
      have := ih t hnodup
      constructor
      · intro htrue
        rw [mergeJobs, hj]
        exact this.1 htrue
      · intro hfalse
        rw [mergeJobs, hj]
        exact this.2 hfalse
    | some files =>
      have hfm : (j :: rest).filterMap Prod.snd = files :: rest.filterMap Prod.snd := by
        rw [List.filterMap_cons, hj]
      rw [hfm] at hnodup ⊢
      have hndf : (pathsOf files).Nodup := hnodup files (List.mem_cons_self _ _)
      have hnodup' : ∀ c ∈ rest.filterMap Prod.snd, (pathsOf c).Nodup :=
        fun c hc => hnodup c (List.mem_cons_of_mem _ hc)
      rw [List.map_cons]
      by_cases hdf : disjointFrom (pathsOf files) (pathsOf t) = true
      · have hcp : cpNoClobber files t = (t ++ files, false) := by
          refine cpNoClobber_disjoint files t hndf ?_
          intro p hp
          rw [lookupEntry_eq_none_iff]
          exact disjointFrom_eq_true.mp hdf p hp
        have hstep : mergeJobs (j :: rest) t = mergeJobs rest (t ++ files) := by
          simp only [mergeJobs, hj, hcp]
          rw [if_neg (by decide : ¬ (false = true))]
        have hTF : disjointFrom (pathsOf t) (pathsOf files) = true := by
          rw [disjointFrom_comm]
          exact hdf
        have hAD : allDisjoint (pathsOf t :: pathsOf files :: (rest.filterMap Prod.snd).map pathsOf) =
            allDisjoint (pathsOf (t ++ files) :: (rest.filterMap Prod.snd).map pathsOf) := by
          rw [allDisjoint_cons_cons, hTF, Bool.true_and, pathsOf_append]
        have := ih (t ++ files) hnodup'
        constructor
        · intro htrue
          rw [hstep, this.1 (by rw [← hAD]; exact htrue)]
          simp [List.flatten_cons, List.append_assoc]
        · intro hfalse
          rw [hstep, this.2 (by rw [← hAD]; exact hfalse)]
      · constructor
        · intro htrue
          exfalso
          rw [allDisjoint_cons_cons] at htrue
          have h1 : disjointFrom (pathsOf t) (pathsOf files) = true :=
            (Bool.and_eq_true_iff.mp htrue).1
          rw [disjointFrom_comm] at h1
          exact hdf h1
        · intro _
          obtain ⟨p, hpf, hpt⟩ : ∃ p ∈ pathsOf files, p ∈ pathsOf t := by
            by_contra hno
            push_neg at hno
            exact hdf (disjointFrom_eq_true.mpr hno)
          have hflag : (cpNoClobber files t).2 = true := by
            refine cpNoClobber_conflict files t p hpf ?_
            rw [lookupEntry_isSome_iff]
            exact hpt
          simp only [mergeJobs, hj]
          rw [if_pos hflag]

/-- The full dist merge (local `dist` first, then job folders): the union
on pairwise-disjoint contributions, the duplicate-files error on any
overlap. -/
theorem mergeDist_spec (localDist : Option (List (String × FileData)))
    (jobs : List (String × Option (List (String × FileData))))
    (hnodup : ∀ c ∈ contribsOf localDist jobs, (pathsOf c).Nodup) :
    (allDisjoint ((contribsOf localDist jobs).map pathsOf) = true →
      mergeDist localDist jobs = Except.ok (contribsOf localDist jobs).flatten) ∧
    (allDisjoint ((contribsOf localDist jobs).map pathsOf) = false →
      mergeDist localDist jobs = Except.error PackageError.duplicateDistFiles) := by
  cases localDist with
  | none =>
    have hc : contribsOf none jobs = jobs.filterMap Prod.snd := by
      simp [contribsOf]
    rw [hc] at hnodup ⊢
    have hspec := mergeJobs_spec jobs [] hnodup
    have hAD : allDisjoint (pathsOf [] :: (jobs.filterMap Prod.snd).map pathsOf) =
        allDisjoint ((jobs.filterMap Prod.snd).map pathsOf) := by
      have : pathsOf ([] : List (String × FileData)) = [] := rfl
      rw [this, allDisjoint_nil_cons]
    constructor
    · intro htrue
      rw [mergeDist, hspec.1 (by rw [hAD]; exact htrue)]
      simp
    · intro hfalse
      rw [mergeDist, hspec.2 (by rw [hAD]; exact hfalse)]
  | some files =>
    have hc : contribsOf (some files) jobs = files :: jobs.filterMap Prod.snd := by
      simp [contribsOf]
    rw [hc] at hnodup ⊢
    have hndf : (pathsOf files).Nodup := hnodup files (List.mem_cons_self _ _)
    have hnodup' : ∀ c ∈ jobs.filterMap Prod.snd, (pathsOf c).Nodup :=
      fun c hc' => hnodup c (List.mem_cons_of_mem _ hc')
    have hcp : cpNoClobber files [] = ([] ++ files, false) := by
      refine cpNoClobber_disjoint files [] hndf ?_
      intro p _
      rfl
    have hstep : mergeDist (some files) jobs = mergeJobs jobs files := by
      rw [mergeDist, hcp]
      simp
    have hspec := mergeJobs_spec jobs files hnodup'
    rw [List.map_cons]
    constructor
    · intro htrue
      rw [hstep, hspec.1 ?_]
      · rw [List.flatten_cons]
      · rw [← List.map_cons]
        exact htrue
    · intro hfalse
      rw [hstep, hspec.2 ?_]
      rw [← List.map_cons]
      exact hfalse

/-- With pairwise-disjoint, internally duplicate-free contributions, every
contributed file keeps its contributor's content in the merged union: the
merge never overwrote anything. -/
theorem lookupEntry_flatten (cs : List (List (String × FileData))) :
    ∀ c ∈ cs, ∀ e ∈ c,
    (∀ c' ∈ cs, (pathsOf c').Nodup) →
    allDisjoint (cs.map pathsOf) = true →
    lookupEntry e.1 cs.flatten = some e.2 := by
  induction cs with
  | nil => intro c hc; cases hc
  | cons c0 cs' ih =>
    intro c hc e he hnd hdisj
    rw [List.map_cons] at hdisj
    have hdisj' : allDisjoint (cs'.map pathsOf) = true := by
      simp only [allDisjoint, Bool.and_eq_true_iff] at hdisj ⊢
      exact hdisj.2
    have hhead : (cs'.map pathsOf).all (disjointFrom (pathsOf c0)) = true := by
      simp only [allDisjoint, Bool.and_eq_true_iff] at hdisj
      exact hdisj.1
    rw [List.flatten_cons, lookupEntry_append]
    rcases List.mem_cons.mp hc with rfl | hc'
    · rw [lookupEntry_of_mem_nodup he (hnd c (List.mem_cons_self _ _))]
    · have he1 : e.1 ∈ pathsOf c := List.mem_map_of_mem Prod.fst he
      have hnotin : e.1 ∉ pathsOf c0 := by
        intro hin
        have hdf : disjointFrom (pathsOf c0) (pathsOf c) = true := by
          rw [List.all_eq_true] at hhead
          exact hhead (pathsOf c) (List.mem_map_of_mem pathsOf hc')
        exact disjointFrom_eq_true.mp hdf e.1 hin he1
      have h0 : lookupEntry e.1 c0 = none := (lookupEntry_eq_none_iff _ _).mpr hnotin
      rw [h0]
      exact ih c hc' e he (fun c' hcc => hnd c' (List.mem_cons_of_mem _ hcc)) hdisj'

theorem mergeJobs_all_none (jobs : List (String × Option (List (String × FileData)))) :
    ∀ t, (∀ j ∈ jobs, j.2 = none) → mergeJobs jobs t = Except.ok t := by
  induction jobs with
  | nil => intro t _; rfl
  | cons j rest ih =>
    intro t hjobs
    have hj := hjobs j (List.mem_cons_self _ _)
    simp only [mergeJobs, hj]
    exact ih t (fun j' hj' => hjobs j' (List.mem_cons_of_mem _ hj'))

/-! ## Claim theorems: Package Stage -/

/-- Claim C2: the dist merge never overwrites an existing file — any two
contributions sharing a relative path make the stage fail with the
duplicate-files error, and with no overlapping paths the merge succeeds
with the canonical tree being the union of all contributions, each file
keeping its unique contributor's content. Contributions are real
directories, so each has internally distinct relative paths. -/
theorem C2_merge_conflict_detection (localDist : Option (List (String × FileData)))
    (jobs : List (String × Option (List (String × FileData))))
    (hnodup : ∀ c ∈ contribsOf localDist jobs, (pathsOf c).Nodup) :
    (allDisjoint ((contribsOf localDist jobs).map pathsOf) = false →
      mergeDist localDist jobs = Except.error PackageError.duplicateDistFiles) ∧
    (allDisjoint ((contribsOf localDist jobs).map pathsOf) = true →
      mergeDist localDist jobs = Except.ok (contribsOf localDist jobs).flatten ∧
      ∀ c ∈ contribsOf localDist jobs, ∀ e ∈ c,
        lookupEntry e.1 (contribsOf localDist jobs).flatten = some e.2) := by
  refine ⟨(mergeDist_spec localDist jobs hnodup).2, fun htrue =>
    ⟨(mergeDist_spec localDist jobs hnodup).1 htrue, ?_⟩⟩
  intro c hc e he
  exact lookupEntry_flatten _ c hc e he hnodup htrue

/-- Witness for C2: a frontend local dist plus a backend job merge to
their union; two jobs shipping the same backend binary fail with the
duplicate-files error. -/
theorem C2_merge_conflict_detection_witness :
    (∀ c ∈ contribsOf pkgInputsOk.localDist pkgInputsOk.jobs, (pathsOf c).Nodup) ∧
    ((allDisjoint ((contribsOf pkgInputsOk.localDist pkgInputsOk.jobs).map pathsOf) = false →
      mergeDist pkgInputsOk.localDist pkgInputsOk.jobs =
        Except.error PackageError.duplicateDistFiles) ∧
     (allDisjoint ((contribsOf pkgInputsOk.localDist pkgInputsOk.jobs).map pathsOf) = true →
      mergeDist pkgInputsOk.localDist pkgInputsOk.jobs =
        Except.ok (contribsOf pkgInputsOk.localDist pkgInputsOk.jobs).flatten ∧
      ∀ c ∈ contribsOf pkgInputsOk.localDist pkgInputsOk.jobs, ∀ e ∈ c,
        lookupEntry e.1 (contribsOf pkgInputsOk.localDist pkgInputsOk.jobs).flatten =
          some e.2)) ∧
    mergeDist pkgInputsDup.localDist pkgInputsDup.jobs =
      Except.error PackageError.duplicateDistFiles ∧
    mergeDist pkgInputsOk.localDist pkgInputsOk.jobs =
      Except.ok (distFrontend ++ distBackend) :=
  ⟨by decide, C2_merge_conflict_detection pkgInputsOk.localDist pkgInputsOk.jobs (by decide),
    by decide, by decide⟩

/-- Claim C6: a produced archive below the 100-byte threshold fails the
stage with the invalid-zip error regardless of the tree's content; an
archive at or above the threshold passes the check and the stage
succeeds. -/
theorem C6_zip_size_threshold (inp : PackageInputs) (tree : List (String × FileData))
    (m : PluginMeta)
    (hmerge : mergeDist inp.localDist inp.jobs = Except.ok tree)
    (hman : lookupEntry "plugin.json" tree = some (FileData.manifest m)) :
    (inp.zipSize < 100 →
      packagePluginRunner inp =
        Except.error (PackageError.invalidZip
          ("packages/" ++ (m.id ++ "-" ++ jsToString m.info.version ++ ".zip")))) ∧
    (100 ≤ inp.zipSize →
      packagePluginRunner inp =
        Except.ok
          { tree := setEntry "plugin.json"
              (FileData.manifest
                { m with info := { m.info with build := some inp.buildInfo } }) tree
            zipName := m.id ++ "-" ++ jsToString m.info.version ++ ".zip" }) := by
  constructor
  · intro hlt
    simp only [packagePluginRunner, hmerge, hman]
    rw [if_pos hlt]
  · intro hge
    simp only [packagePluginRunner, hmerge, hman]
    rw [if_neg (by omega)]

/-- Witness for C6: a 50-byte archive of a well-formed tree is rejected
as `Invalid zip file`. -/
theorem C6_zip_size_threshold_witness :
    mergeDist pkgInputsSmallZip.localDist pkgInputsSmallZip.jobs = Except.ok distFrontend ∧
    lookupEntry "plugin.json" distFrontend = some (FileData.manifest (metaPanel none)) ∧
    pkgInputsSmallZip.zipSize < 100 ∧
    packagePluginRunner pkgInputsSmallZip =
      Except.error (PackageError.invalidZip
        ("packages/" ++ ((metaPanel none).id ++ "-" ++
          jsToString (metaPanel none).info.version ++ ".zip"))) :=
  ⟨by decide, by decide, by decide,
    (C6_zip_size_threshold pkgInputsSmallZip distFrontend (metaPanel none)
      (by decide) (by decide)).1 (by decide)⟩

/-- Claim C8 (refutation): with no local `dist` and no job contributing a
`dist` folder, the merge does produce the empty canonical tree and no
empty-package check exists — but the stage does not succeed: loading
`plugin.json` from the empty tree fails, so the run ends with the
missing-manifest error. -/
theorem C8_empty_package_counterexample :
    mergeDist pkgInputsEmpty.localDist pkgInputsEmpty.jobs = Except.ok [] ∧
    packagePluginRunner pkgInputsEmpty =
      Except.error (PackageError.missingManifest "plugin.json") :=
  ⟨by decide, by decide⟩

/-- Claim C8 as amended: when no build job contributed a `dist` folder
and no local `dist` folder exists, the merge still succeeds with an empty
canonical tree and no empty-package error is raised; the stage then fails
fatally at manifest loading, because `plugin.json` is absent from the
empty tree. -/
theorem C8_empty_package_amended (inp : PackageInputs)
    (hlocal : inp.localDist = none) (hjobs : ∀ j ∈ inp.jobs, j.2 = none) :
    mergeDist inp.localDist inp.jobs = Except.ok [] ∧
    packagePluginRunner inp = Except.error (PackageError.missingManifest "plugin.json") := by
  have hmerge : mergeDist inp.localDist inp.jobs = Except.ok [] := by
    rw [hlocal]
    simp only [mergeDist]
    exact mergeJobs_all_none inp.jobs [] hjobs
  refine ⟨hmerge, ?_⟩
  simp only [packagePluginRunner, hmerge]
  rfl

/-- Witness for the amended C8 at the concrete empty-contribution run. -/
theorem C8_empty_package_amended_witness :
    pkgInputsEmpty.localDist = none ∧
    (∀ j ∈ pkgInputsEmpty.jobs, j.2 = none) ∧
    (mergeDist pkgInputsEmpty.localDist pkgInputsEmpty.jobs = Except.ok [] ∧
      packagePluginRunner pkgInputsEmpty =
        Except.error (PackageError.missingManifest "plugin.json")) :=
  ⟨rfl, by decide, C8_empty_package_amended pkgInputsEmpty rfl (by decide)⟩

/-! ## Claim theorems: Test Stage -/

/-- Claim C4: failures to set up the scratch/output directories are
fatal; once setup succeeds the stage never fails — any exception from the
instance-settings query, the build-hash check or the end-to-end runner is
stored in the results record's error field, and the stage still copies
runner output to its job folder, fills in the screenshot list and writes
the results JSON. -/
theorem C4_test_errors_captured (o : TestOracles) :
    (o.outputSetupOk = false →
      (testPluginRunner o).fatal ≠ none ∧ (testPluginRunner o).written = none) ∧
    (o.outputSetupOk = true → o.tempSetupOk = false →
      (testPluginRunner o).fatal ≠ none ∧ (testPluginRunner o).written = none) ∧
    (o.outputSetupOk = true → o.tempSetupOk = true →
      (testPluginRunner o).fatal = none ∧
      (testPluginRunner o).copiedToJob = true ∧
      (testPluginRunner o).written =
        some { tryPhase o (initResults o) with screenshots := o.outputImages } ∧
      (∀ e, o.frontendSettings = Except.error e →
        (tryPhase o (initResults o)).error = some e) ∧
      (∀ gi m e, o.frontendSettings = Except.ok gi → o.loadedMeta = Except.ok m →
        checkVersion m o.settingsPlugin = Except.error e →
        (tryPhase o (initResults o)).error = some e) ∧
      (∀ gi m e, o.frontendSettings = Except.ok gi → o.loadedMeta = Except.ok m →
        checkVersion m o.settingsPlugin = Except.ok () → o.copyTemplateOk = true →
        o.e2e = Except.error e →
        (tryPhase o (initResults o)).error = some e)) := by
  refine ⟨?_, ?_, ?_⟩
  · intro h
    simp [testPluginRunner, h]
  · intro h1 h2
    simp [testPluginRunner, h1, h2]
  · intro h1 h2
    refine ⟨?_, ?_, ?_, ?_, ?_, ?_⟩
    · simp [testPluginRunner, h1, h2]
    · simp [testPluginRunner, h1, h2]
    · simp [testPluginRunner, h1, h2]
    · intro e he
      simp [tryPhase, he]
    · intro gi m e hgi hm hv
      simp [tryPhase, hgi, hm, hv]
    · intro gi m e hgi hm hv hcp he
      simp [tryPhase, hgi, hm, hv, hcp, he]

/-- Witness for C4: a run whose end-to-end runner throws still writes a
results record carrying the error and the screenshots. -/
theorem C4_test_errors_captured_witness :
    ((oraclesE2eFail.outputSetupOk = false →
      (testPluginRunner oraclesE2eFail).fatal ≠ none ∧
        (testPluginRunner oraclesE2eFail).written = none) ∧
    (oraclesE2eFail.outputSetupOk = true → oraclesE2eFail.tempSetupOk = false →
      (testPluginRunner oraclesE2eFail).fatal ≠ none ∧
        (testPluginRunner oraclesE2eFail).written = none) ∧
    (oraclesE2eFail.outputSetupOk = true → oraclesE2eFail.tempSetupOk = true →
      (testPluginRunner oraclesE2eFail).fatal = none ∧
      (testPluginRunner oraclesE2eFail).copiedToJob = true ∧
      (testPluginRunner oraclesE2eFail).written =
        some { tryPhase oraclesE2eFail (initResults oraclesE2eFail) with
          screenshots := oraclesE2eFail.outputImages } ∧
      (∀ e, oraclesE2eFail.frontendSettings = Except.error e →
        (tryPhase oraclesE2eFail (initResults oraclesE2eFail)).error = some e) ∧
      (∀ gi m e, oraclesE2eFail.frontendSettings = Except.ok gi →
        oraclesE2eFail.loadedMeta = Except.ok m →
        checkVersion m oraclesE2eFail.settingsPlugin = Except.error e →
        (tryPhase oraclesE2eFail (initResults oraclesE2eFail)).error = some e) ∧
      (∀ gi m e, oraclesE2eFail.frontendSettings = Except.ok gi →
        oraclesE2eFail.loadedMeta = Except.ok m →
        checkVersion m oraclesE2eFail.settingsPlugin = Except.ok () →
        oraclesE2eFail.copyTemplateOk = true →
        oraclesE2eFail.e2e = Except.error e →
        (tryPhase oraclesE2eFail (initResults oraclesE2eFail)).error = some e))) ∧
    (testPluginRunner oraclesE2eFail).written =
      some { job := "test_1", passed := 0, failed := 0, screenshots := ["panel.png"],
             grafana := some "7.0.0-build-77", error := some "end-to-end tests threw" } :=
  ⟨C4_test_errors_captured oraclesE2eFail, by decide⟩

end PluginCI
